import Mathlib

/-!
Shallow embedding of the plan execution engine of santoshkal/mcp-godocker.

The embedded code is the registry-based JSON-RPC server (`server.go` with the
tool registry: types `ToolHandler`, `RegisteredTool`, `Server.RegisterTool`,
`Server.ExecutePlan`, `Server.CallTool`), the Docker helper functions of
`pkg/docker` (`CreateNetwork`, `CreateContainer`, `CreateVolume`,
`RunContainer`, `PullImage`) and the JSON-RPC envelope types of
`pkg/mcp/types.go` (`RPCResponse`, `RPCError`, `NewError`, `ToolCallArgs`).

Modelling conventions:
 - Decoded JSON values (Go `interface\x7b\x7d` after `json.Unmarshal`) are the
   inductive `Json`.  Go `map[string]interface\x7b\x7d` is an association list;
   a nil map and an empty map are both `[]`, which is faithful for reads.
 - `encoding/json` is an external library; it is modelled by an executable
   recursive-descent parser (`parseJson`) over the JSON grammar.  Number
   literals are modelled at integer precision, which is all the engine and the
   claims observe (the engine never reads a numeric value, only its type tag).
   The text of parse error messages is abstracted to a fixed string; the engine
   only wraps that text, and all claims are about the numeric error codes.
 - Go contexts are modelled by their deadline.  `context.WithTimeout` has the
   documented clamping semantics: the deadline of the child is adjusted to be
   no later than the deadline of the parent.
 - The Docker SDK client is the external runtime-capability collaborator; it is
   modelled by an oracle `DockerRuntime` giving the outcome of each operation,
   and every helper also returns the list of collaborator calls it performed,
   so that claims about invocation order and about skipped calls are statable.
 - `json.Marshal` of a `map[string]string` cannot fail, so the dead
   marshal-failure branches of `ExecutePlan` and `CallTool` are not reachable
   and the success payloads are modelled directly as values.
-/

/-- A decoded JSON value (Go `interface\x7b\x7d` holding `json.Unmarshal` output). -/
inductive Json where
  | null : Json
  | bool (b : Bool) : Json
  | num (n : Int) : Json
  | str (s : String) : Json
  | arr (elems : List Json) : Json
  | obj (fields : List (String × Json)) : Json

/-- A parameter bag: Go `map[string]interface\x7b\x7d` (nil map modelled as `[]`). -/
abbrev Params := List (String × Json)

/-- Map lookup, Go `m[key]` returning presence. -/
def lookupParam (m : Params) (key : String) : Option Json :=
  match m with
  | [] => none
  | (k, v) :: rest => if k = key then some v else lookupParam rest key

/-- Go type assertion `m[key].(string)`: the comma-ok form, yielding the zero
value `""` and `false` when the key is absent or the value is not a string. -/
def getString (m : Params) (key : String) : String × Bool :=
  match lookupParam m key with
  | some (Json.str s) => (s, true)
  | _ => ("", false)

/-- Go type assertion `m[key].(map[string]interface\x7b\x7d)` with the error
ignored (`, _`): a nil map results unless the value is an object. -/
def getObj (m : Params) (key : String) : Params :=
  match lookupParam m key with
  | some (Json.obj fields) => fields
  | _ => []

/-- A Go context, modelled by its deadline (absolute time, in seconds). -/
structure Ctx where
  deadline : Option Nat
deriving Repr, DecidableEq

/-- `context.Background()`: no deadline. -/
def ctxBackground : Ctx := ⟨none⟩

/-- `context.WithTimeout(parent, d)` called at wall-clock time `now`: the child
deadline is adjusted to be no later than the deadline of the parent. -/
def withTimeout (parent : Ctx) (now d : Nat) : Ctx :=
  match parent.deadline with
  | none => ⟨some (now + d)⟩
  | some pd => ⟨some (min pd (now + d))⟩

/-! JSON parsing (models `encoding/json` syntax checking). -/

/-- Skip JSON whitespace. -/
def skipWs : List Char → List Char
  | [] => []
  | c :: cs => if c = ' ' ∨ c = '\n' ∨ c = '\t' ∨ c = '\r' then skipWs cs else c :: cs

/-- Match an expected literal character sequence. -/
def expectChars : List Char → List Char → Option (List Char)
  | [], l => some l
  | c :: cs, l =>
    match l with
    | [] => none
    | x :: xs => if x = c then expectChars cs xs else none

/-- Parse the body of a JSON string after the opening quote (fuelled). -/
def parseStringBody : Nat → List Char → Option (String × List Char)
  | 0, _ => none
  | Nat.succ fuel, l =>
    match l with
    | [] => none
    | c :: cs =>
      if c = '"' then some ("", cs)
      else if c = '\\' then
        match cs with
        | [] => none
        | e :: cs2 =>
          let ec : Option Char :=
            if e = '"' then some '"'
            else if e = '\\' then some '\\'
            else if e = '/' then some '/'
            else if e = 'n' then some '\n'
            else if e = 't' then some '\t'
            else if e = 'r' then some '\r'
            else none
          match ec with
          | none => none
          | some ch =>
            match parseStringBody fuel cs2 with
            | some (s, rest) => some (String.mk (ch :: s.data), rest)
            | none => none
      else
        match parseStringBody fuel cs with
        | some (s, rest) => some (String.mk (c :: s.data), rest)
        | none => none

/-- Parse digits with a left accumulator (fuelled). -/
def parseNumTail (acc : Nat) : Nat → List Char → Nat × List Char
  | 0, l => (acc, l)
  | Nat.succ fuel, l =>
    match l with
    | [] => (acc, [])
    | c :: cs =>
      if c.isDigit then parseNumTail (acc * 10 + (c.toNat - ('0').toNat)) fuel cs
      else (acc, l)

mutual

/-- Parse one JSON value (fuelled recursive descent). -/
def parseValue : Nat → List Char → Option (Json × List Char)
  | 0, _ => none
  | Nat.succ fuel, l =>
    match skipWs l with
    | [] => none
    | c :: cs =>
      if c = 'n' then
        match expectChars ['u', 'l', 'l'] cs with
        | some rest => some (Json.null, rest)
        | none => none
      else if c = 't' then
        match expectChars ['r', 'u', 'e'] cs with
        | some rest => some (Json.bool true, rest)
        | none => none
      else if c = 'f' then
        match expectChars ['a', 'l', 's', 'e'] cs with
        | some rest => some (Json.bool false, rest)
        | none => none
      else if c = '"' then
        match parseStringBody (Nat.succ fuel) cs with
        | some (s, rest) => some (Json.str s, rest)
        | none => none
      else if c = '[' then
        match skipWs cs with
        | ']' :: rest => some (Json.arr [], rest)
        | l2 => parseElems fuel l2
      else if c = '{' then
        match skipWs cs with
        | '}' :: rest => some (Json.obj [], rest)
        | l2 => parseFields fuel l2
      else if c = '-' then
        match cs with
        | d :: ds =>
          if d.isDigit then
            let (n, rest) := parseNumTail (d.toNat - ('0').toNat) (Nat.succ fuel) ds
            some (Json.num (-(Int.ofNat n)), rest)
          else none
        | [] => none
      else if c.isDigit then
        let (n, rest) := parseNumTail (c.toNat - ('0').toNat) (Nat.succ fuel) cs
        some (Json.num (Int.ofNat n), rest)
      else none

/-- Parse the elements of a non-empty JSON array, up to the closing bracket. -/
def parseElems : Nat → List Char → Option (Json × List Char)
  | 0, _ => none
  | Nat.succ fuel, l =>
    match parseValue fuel l with
    | none => none
    | some (v, rest) =>
      match skipWs rest with
      | ',' :: r2 =>
        match parseElems fuel r2 with
        | some (Json.arr vs, r3) => some (Json.arr (v :: vs), r3)
        | _ => none
      | ']' :: r2 => some (Json.arr [v], r2)
      | _ => none

/-- Parse the fields of a non-empty JSON object, up to the closing brace. -/
def parseFields : Nat → List Char → Option (Json × List Char)
  | 0, _ => none
  | Nat.succ fuel, l =>
    match skipWs l with
    | '"' :: cs =>
      match parseStringBody (Nat.succ fuel) cs with
      | none => none
      | some (k, rest) =>
        match skipWs rest with
        | ':' :: r2 =>
          match parseValue fuel r2 with
          | none => none
          | some (v, r3) =>
            match skipWs r3 with
            | ',' :: r4 =>
              match parseFields fuel r4 with
              | some (Json.obj fs, r5) => some (Json.obj ((k, v) :: fs), r5)
              | _ => none
            | '}' :: r4 => some (Json.obj [(k, v)], r4)
            | _ => none
        | _ => none
    | _ => none

end

/-- Parse a complete JSON document: one value followed only by whitespace. -/
def parseJson (s : String) : Option Json :=
  match parseValue (2 * s.length + 2) s.data with
  | some (j, rest) => if skipWs rest = [] then some j else none
  | none => none

/-- Fixed stand-in for the text of an encoding/json syntax error (the engine
only wraps this text; every claim is about the numeric code). -/
def jsonSyntaxErrorMsg : String := "invalid JSON"

/-- Unmarshal one plan element into a `map[string]interface\x7b\x7d`
(`null` leaves the map nil). -/
def jsonToMap : Json → Except String Params
  | Json.obj fields => Except.ok fields
  | Json.null => Except.ok []
  | _ => Except.error "cannot unmarshal plan element into a map"

/-- `json.Unmarshal([]byte(s), &plan)` with
`plan : []map[string]interface\x7b\x7d` (top-level `null` leaves the slice
nil, which has length zero). -/
def unmarshalPlan (s : String) : Except String (List Params) :=
  match parseJson s with
  | none => Except.error jsonSyntaxErrorMsg
  | some Json.null => Except.ok []
  | some (Json.arr elems) => elems.mapM jsonToMap
  | some _ => Except.error "cannot unmarshal plan into a list"

/-! The JSON-RPC envelope (`pkg/mcp/types.go`). -/

/-- `mcp.JSONRPCVersion`. -/
def JSONRPCVersion : String := "2.0"

/-- `mcp.RPCError`. -/
structure RPCError where
  code : Int
  message : String
deriving Repr, DecidableEq

/-- `mcp.NewError`. -/
def NewError (code : Int) (message : String) : RPCError :=
  { code := code, message := message }

/-- `mcp.RPCResponse` (`Result` is a nilable `json.RawMessage`, `Error` a
nilable pointer, `ID` a nilable pointer; nil is `none`). -/
structure RPCResponse where
  version : String
  result : Option Json
  error : Option RPCError
  id : Option Int

/-- An `RPCResponse` holding only an error, as built on every failure path. -/
def errorResponse (e : RPCError) : RPCResponse :=
  { version := JSONRPCVersion, result := none, error := some e, id := none }

/-- An `RPCResponse` holding only a result. -/
def resultResponse (r : Json) : RPCResponse :=
  { version := JSONRPCVersion, result := some r, error := none, id := none }

/-- `mcp.ToolCallArgs`. -/
structure ToolCallArgs where
  toolName : String
  parameters : Params

/-! The Docker helper layer (`pkg/docker/docker.go`), with the SDK client as
an oracle collaborator and an explicit trace of the collaborator calls. -/

/-- One call to the runtime-capability collaborator (the Docker SDK client).
`imagePull` records the deadline of the context it was given. -/
inductive DockerCall where
  | networkCreate (name : String)
  | containerCreate (name : String) (image : String)
  | volumeCreate (name : String)
  | containerInspect (name : String)
  | containerStart (name : String)
  | imagePull (deadline : Option Nat) (ref : String)
deriving Repr, DecidableEq

/-- Oracle for the outcomes of collaborator calls.  `running` is the state a
`ContainerInspect` query would report; the registered handlers never consult
it, which is exactly what claim C3 is about. -/
structure DockerRuntime where
  networkCreate : String → Except String Unit
  containerCreate : String → String → Except String Unit
  volumeCreate : String → Except String Unit
  containerStart : String → Except String Unit
  imagePull : String → Except String Unit
  running : String → Bool

/-- `docker.CreateNetwork`. -/
def CreateNetwork (rt : DockerRuntime) (name : String) :
    Except String Unit × List DockerCall :=
  if name = "" then (Except.error "missing network name", [])
  else (rt.networkCreate name, [DockerCall.networkCreate name])

/-- `docker.CreateContainer`. -/
def CreateContainer (rt : DockerRuntime) (name image : String) :
    Except String Unit × List DockerCall :=
  if name = "" ∨ image = "" then (Except.error "missing container name or image", [])
  else (rt.containerCreate name image, [DockerCall.containerCreate name image])

/-- `docker.CreateVolume`. -/
def CreateVolume (rt : DockerRuntime) (name : String) :
    Except String Unit × List DockerCall :=
  if name = "" then (Except.error "invalid or missing volume name", [])
  else (rt.volumeCreate name, [DockerCall.volumeCreate name])

/-- `docker.RunContainer`: validates the name and starts the container.  It
performs no `ContainerInspect` query and never skips the start call. -/
def RunContainer (rt : DockerRuntime) (name : String) :
    Except String Unit × List DockerCall :=
  if name = "" then (Except.error "invalid container name", [])
  else (rt.containerStart name, [DockerCall.containerStart name])

/-- The image-reference resolution step of `docker.PullImage`: use a usable
`image` parameter directly, else combine `name` and `tag`, the tag defaulting
to `latest`. -/
def resolveImageRef (parameters : Params) : Except String String :=
  let image := (getString parameters "image").1
  let ok := (getString parameters "image").2
  if ok = false ∨ image = "" then
    let name := (getString parameters "name").1
    let nameOk := (getString parameters "name").2
    let tag0 := (getString parameters "tag").1
    let tagOk := (getString parameters "tag").2
    if nameOk = false ∨ name = "" then Except.error "missing image name for pull_image"
    else
      let tag := if tagOk = false ∨ tag0 = "" then "latest" else tag0
      Except.ok (name ++ ":" ++ tag)
  else Except.ok image

/-- `docker.PullImage`, pulling at wall-clock time `now`: resolves the image
reference, then pulls under a child context built with
`context.WithTimeout(ctx, 2*time.Minute)`. -/
def PullImage (rt : DockerRuntime) (ctx : Ctx) (now : Nat) (parameters : Params) :
    Except String Unit × List DockerCall :=
  match resolveImageRef parameters with
  | Except.error e => (Except.error e, [])
  | Except.ok image =>
    let pullCtx := withTimeout ctx now 120
    (rt.imagePull image, [DockerCall.imagePull pullCtx.deadline image])

/-! The registered tool handlers (the closures passed to `RegisterTool` in
`NewServer`; the named forms in the sibling server file are identical). -/

/-- The closure registered for `create_network`. -/
def createNetworkHandler (rt : DockerRuntime) (ctx : Ctx) (parameters : Params) :
    Except String Unit × List DockerCall :=
  CreateNetwork rt (getString parameters "name").1

/-- The closure registered for `create_container`: extracts only `name` and
`image`, rejects empty ones, and delegates to `docker.CreateContainer`. -/
def createContainerHandler (rt : DockerRuntime) (ctx : Ctx) (parameters : Params) :
    Except String Unit × List DockerCall :=
  let name := (getString parameters "name").1
  let image := (getString parameters "image").1
  if name = "" ∨ image = "" then (Except.error "missing container name or image", [])
  else CreateContainer rt name image

/-- The closure registered for `create_volume`. -/
def createVolumeHandler (rt : DockerRuntime) (ctx : Ctx) (parameters : Params) :
    Except String Unit × List DockerCall :=
  CreateVolume rt (getString parameters "name").1

/-- The closure registered for `run_container`: extracts `name` and delegates
to `docker.RunContainer`. -/
def runContainerHandler (rt : DockerRuntime) (ctx : Ctx) (parameters : Params) :
    Except String Unit × List DockerCall :=
  RunContainer rt (getString parameters "name").1

/-- The closure registered for `pull_image`: passes the whole bag to
`docker.PullImage`. -/
def pullImageHandler (rt : DockerRuntime) (ctx : Ctx) (now : Nat) (parameters : Params) :
    Except String Unit × List DockerCall :=
  PullImage rt ctx now parameters

/-! The tool registry and the engine (`server.go`). -/

/-- `ToolHandler`: the signature the engine dispatches on (the engine observes
only success or a failure message). -/
abbrev ToolHandler := Ctx → Params → Except String Unit

/-- `RegisteredTool`. -/
structure RegisteredTool where
  name : String
  description : String
  inputSchema : Json
  handler : ToolHandler

/-- The registry field `Server.tools`, a Go map from name to entry. -/
abbrev Registry := String → Option RegisteredTool

/-- The freshly made registry of `NewServer` before any registration. -/
def emptyTools : Registry := fun _ => none

/-- `Server.RegisterTool`: Go map assignment, replacing any entry under the
same name. -/
def RegisterTool (tools : Registry) (name description : String)
    (inputSchema : Json) (handler : ToolHandler) : Registry :=
  fun k =>
    if k = name then
      some { name := name, description := description,
             inputSchema := inputSchema, handler := handler }
    else tools k

/-- The fixed success payload of `ExecutePlan`
(`json.Marshal` of the status and message map). -/
def planSuccessResult : Json :=
  Json.obj [("status", Json.str "success"), ("message", Json.str "Plan executed successfully")]

/-- The success payload of `CallTool` for a given tool name. -/
def callToolSuccessResult (toolName : String) : Json :=
  Json.obj [("status", Json.str "success"),
            ("message", Json.str ("Tool " ++ toolName ++ " executed successfully"))]

/-- The plan-wide context of `ExecutePlan`:
`context.WithTimeout(context.Background(), 30*time.Second)` created once,
at wall-clock time `now`, before the action loop. -/
def planCtx (now : Nat) : Ctx := withTimeout ctxBackground now 30

/-- The action loop of `Server.ExecutePlan`: for each action in order, extract
`action` (string), take `parameters` if it is an object (nil map otherwise),
resolve the name in the registry and invoke the handler; fail fast.  Besides
the response, the list of handler invocations (name and bag, in order) is
returned. -/
def execActions (tools : Registry) (ctx : Ctx) :
    List Params → RPCResponse × List (String × Params)
  | [] => (resultResponse planSuccessResult, [])
  | action :: rest =>
    let (actionType, ok) := getString action "action"
    if ok = false ∨ actionType = "" then
      (errorResponse (NewError (-32602) "invalid action format"), [])
    else
      let parameters := getObj action "parameters"
      match tools actionType with
      | some tool =>
        match tool.handler ctx parameters with
        | Except.error e =>
          (errorResponse (NewError (-32000)
              ("failed to execute tool " ++ actionType ++ ": " ++ e)),
           [(actionType, parameters)])
        | Except.ok _ =>
          let r := execActions tools ctx rest
          (r.1, (actionType, parameters) :: r.2)
      | none =>
        (errorResponse (NewError (-32601) ("unknown action: " ++ actionType)), [])

/-- `Server.ExecutePlan` at wall-clock time `now` (`args` is a nilable string
pointer): reject a nil or empty argument, unmarshal the plan, reject an empty
plan, then run the action loop under the single plan-wide context. -/
def ExecutePlan (tools : Registry) (now : Nat) (args : Option String) :
    RPCResponse × List (String × Params) :=
  match args with
  | none => (errorResponse (NewError (-32602) "ExecutePlan received empty plan"), [])
  | some planStr =>
    if planStr = "" then
      (errorResponse (NewError (-32602) "ExecutePlan received empty plan"), [])
    else
      match unmarshalPlan planStr with
      | Except.error e =>
        (errorResponse (NewError (-32700) ("failed to parse plan JSON: " ++ e)), [])
      | Except.ok plan =>
        if plan.length = 0 then
          (errorResponse (NewError (-32602) "received empty plan from LLM"), [])
        else
          execActions tools (planCtx now) plan

/-- `Server.CallTool` at wall-clock time `now`: resolve the tool, invoke its
handler under a fresh 30-second context, wrap the outcome. -/
def CallTool (tools : Registry) (now : Nat) (args : ToolCallArgs) :
    RPCResponse × List (String × Params) :=
  match tools args.toolName with
  | none =>
    (errorResponse (NewError (-32601) ("unknown tool: " ++ args.toolName)), [])
  | some tool =>
    let ctx := withTimeout ctxBackground now 30
    match tool.handler ctx args.parameters with
    | Except.error e =>
      (errorResponse (NewError (-32000)
          ("failed to execute tool " ++ args.toolName ++ ": " ++ e)),
       [(args.toolName, args.parameters)])
    | Except.ok _ =>
      (resultResponse (callToolSuccessResult args.toolName),
       [(args.toolName, args.parameters)])

/-! Helper definitions and lemmas shared by the claim theorems. -/

/-- The tool name of a raw plan action. -/
def actionName (a : Params) : String := (getString a "action").1

/-- The handler invocation a raw plan action gives rise to. -/
def invocationOf (a : Params) : String × Params :=
  (actionName a, getObj a "parameters")

/-- A raw action whose name extracts, resolves, and whose handler succeeds
under the given context. -/
def actionOk (tools : Registry) (ctx : Ctx) (a : Params) : Prop :=
  (getString a "action").2 = true ∧ actionName a ≠ "" ∧
  ∃ t, tools (actionName a) = some t ∧
    t.handler ctx (getObj a "parameters") = Except.ok ()

/-- Exactly one of result and error is populated. -/
def exactlyOne (r : RPCResponse) : Prop :=
  (r.result ≠ none ∧ r.error = none) ∨ (r.result = none ∧ r.error ≠ none)

theorem execActions_all_ok (tools : Registry) (ctx : Ctx) :
    ∀ plan : List Params, (∀ a ∈ plan, actionOk tools ctx a) →
      execActions tools ctx plan =
        (resultResponse planSuccessResult, plan.map invocationOf) := by
  intro plan
  induction plan with
  | nil => intro _; rfl
  | cons a rest ih =>
    intro hall
    obtain ⟨hok, hne, t, ht, hrun⟩ := hall a (List.mem_cons_self a rest)
    have hrest := ih (fun x hx => hall x (List.mem_cons_of_mem a hx))
    unfold execActions
    rw [show getString a "action" = ((getString a "action").1, true) from by
      rw [← hok]]
    simp only [actionName] at hne ht hrun
    simp [hne, ht, hrun, hrest, invocationOf, actionName]

theorem execActions_failfast (tools : Registry) (ctx : Ctx)
    (failAct : Params) (post : List Params) (t : RegisteredTool) (e : String)
    (hok : (getString failAct "action").2 = true) (hne : actionName failAct ≠ "")
    (ht : tools (actionName failAct) = some t)
    (herr : t.handler ctx (getObj failAct "parameters") = Except.error e) :
    ∀ pre : List Params, (∀ a ∈ pre, actionOk tools ctx a) →
      execActions tools ctx (pre ++ failAct :: post) =
        (errorResponse (NewError (-32000)
            ("failed to execute tool " ++ actionName failAct ++ ": " ++ e)),
         pre.map invocationOf ++ [invocationOf failAct]) := by
  intro pre
  induction pre with
  | nil =>
    intro _
    rw [List.nil_append]
    unfold execActions
    rw [show getString failAct "action" = ((getString failAct "action").1, true) from by
      rw [← hok]]
    simp only [actionName] at hne ht herr
    simp [hne, ht, herr, invocationOf, actionName]
  | cons a rest ih =>
    intro hall
    obtain ⟨haok, hane, ta, hta, harun⟩ := hall a (List.mem_cons_self a rest)
    have hrest := ih (fun x hx => hall x (List.mem_cons_of_mem a hx))
    rw [List.cons_append]
    unfold execActions
    rw [show getString a "action" = ((getString a "action").1, true) from by
      rw [← haok]]
    simp only [actionName] at hane hta harun
    simp [hane, hta, harun, hrest, invocationOf, actionName]

theorem execActions_exactlyOne (tools : Registry) (ctx : Ctx) :
    ∀ plan : List Params, exactlyOne (execActions tools ctx plan).1 := by
  intro plan
  induction plan with
  | nil =>
    exact Or.inl ⟨by simp [execActions, resultResponse], rfl⟩
  | cons a rest ih =>
    unfold execActions
    rcases hga : getString a "action" with ⟨nm, ok⟩
    by_cases hcond : ok = false ∨ nm = ""
    · simp only [hga, if_pos hcond]
      exact Or.inr ⟨rfl, by simp [errorResponse]⟩
    · rcases htool : tools nm with _ | t
      · simp only [hga, if_neg hcond, htool]
        exact Or.inr ⟨rfl, by simp [errorResponse]⟩
      · rcases hrun : t.handler ctx (getObj a "parameters") with e | u
        · simp only [hga, if_neg hcond, htool, hrun]
          exact Or.inr ⟨rfl, by simp [errorResponse]⟩
        · simp only [hga, if_neg hcond, htool, hrun]
          simpa using ih

/-- C2: `ExecutePlan` classifies bad input without invoking any handler: the
empty string and the empty JSON array yield error code -32602 (empty plan),
a syntactically invalid string yields error code -32700 (parse error), and in
all three cases the invocation trace is empty. -/
theorem C2_bad_input_no_handlers (tools : Registry) (now : Nat) :
    ExecutePlan tools now (some "") =
      (errorResponse (NewError (-32602) "ExecutePlan received empty plan"), []) ∧
    ExecutePlan tools now (some "[]") =
      (errorResponse (NewError (-32602) "received empty plan from LLM"), []) ∧
    ExecutePlan tools now (some "\x7bnot json") =
      (errorResponse (NewError (-32700)
          ("failed to parse plan JSON: " ++ jsonSyntaxErrorMsg)), []) :=
  ⟨rfl, rfl, rfl⟩

/-- C6: registering a tool under an already present name replaces the previous
entry (the lookup yields exactly the second registration), and every other
registry entry is unaffected. -/
theorem C6_register_last_wins (tools : Registry) (nm d1 d2 : String)
    (s1 s2 : Json) (h1 h2 : ToolHandler) :
    RegisterTool (RegisterTool tools nm d1 s1 h1) nm d2 s2 h2 nm =
      some { name := nm, description := d2, inputSchema := s2, handler := h2 } ∧
    ∀ k, k ≠ nm → RegisterTool (RegisterTool tools nm d1 s1 h1) nm d2 s2 h2 k = tools k := by
  constructor
  · simp [RegisterTool]
  · intro k hk
    simp [RegisterTool, hk]

/-- A handler that always succeeds (for concrete test registries). -/
def hNoop : ToolHandler := fun _ _ => Except.ok ()

/-- A handler that always fails with the message boom. -/
def hBoom : ToolHandler := fun _ _ => Except.error "boom"

/-- Witness for C6 at a concrete registry: the duplicate name resolves to the
second registration and an unrelated entry is untouched. -/
theorem C6_register_last_wins_witness :
    RegisterTool (RegisterTool (RegisterTool emptyTools "other" "od" Json.null hNoop)
        "dup" "first" Json.null hNoop) "dup" "second" (Json.str "schema2") hBoom "dup" =
      some { name := "dup", description := "second", inputSchema := Json.str "schema2",
             handler := hBoom } ∧
    RegisterTool (RegisterTool (RegisterTool emptyTools "other" "od" Json.null hNoop)
        "dup" "first" Json.null hNoop) "dup" "second" (Json.str "schema2") hBoom "other" =
      RegisterTool emptyTools "other" "od" Json.null hNoop "other" :=
  ⟨(C6_register_last_wins (RegisterTool emptyTools "other" "od" Json.null hNoop)
      "dup" "first" "second" Json.null (Json.str "schema2") hNoop hBoom).1,
   (C6_register_last_wins (RegisterTool emptyTools "other" "od" Json.null hNoop)
      "dup" "first" "second" Json.null (Json.str "schema2") hNoop hBoom).2 "other" (by decide)⟩

/-- C9: every envelope returned by `ExecutePlan` and by `CallTool` populates
exactly one of result and error: error paths set the error and leave the
result absent, the success path sets the result and leaves the error absent. -/
theorem C9_envelope_exactly_one (tools : Registry) (now : Nat)
    (args : Option String) (targs : ToolCallArgs) :
    exactlyOne (ExecutePlan tools now args).1 ∧ exactlyOne (CallTool tools now targs).1 := by
  constructor
  · unfold ExecutePlan
    rcases args with _ | s
    · exact Or.inr ⟨rfl, by simp [errorResponse]⟩
    · by_cases hs : s = ""
      · simp only [hs, if_pos]
        exact Or.inr ⟨rfl, by simp [errorResponse]⟩
      · simp only [if_neg hs]
        rcases hu : unmarshalPlan s with e | plan
        · exact Or.inr ⟨rfl, by simp [errorResponse]⟩
        · by_cases hlen : plan.length = 0
          · simp only [hlen, if_pos]
            exact Or.inr ⟨rfl, by simp [errorResponse]⟩
          · simp only [if_neg hlen]
            exact execActions_exactlyOne tools (planCtx now) plan
  · unfold CallTool
    rcases ht : tools targs.toolName with _ | t
    · exact Or.inr ⟨rfl, by simp [errorResponse]⟩
    · rcases hr : t.handler (withTimeout ctxBackground now 30) targs.parameters with e | u
      · simp only [hr]
        exact Or.inr ⟨rfl, by simp [errorResponse]⟩
      · simp only [hr]
        exact Or.inl ⟨by simp [resultResponse], rfl⟩

/-- C1: for a plan string that parses to a non-empty action list, the engine
invokes handlers sequentially in submitted order.  If every handler succeeds,
the envelope carries the fixed success payload and no error, and the
invocation trace is exactly the submitted sequence.  If the handler of the
action after prefix `pre` is the first to fail, the handlers of `pre` were
each invoked exactly once in order, the failing one once, none of the later
ones, and the error (code -32000) names the failing tool in its message. -/
theorem C1_sequential_failfast (tools : Registry) (now : Nat) (planStr : String)
    (plan : List Params)
    (hstr : planStr ≠ "") (hparse : unmarshalPlan planStr = Except.ok plan)
    (hne : plan ≠ []) :
    ((∀ a ∈ plan, actionOk tools (planCtx now) a) →
      ExecutePlan tools now (some planStr) =
        (resultResponse planSuccessResult, plan.map invocationOf)) ∧
    (∀ (pre : List Params) (failAct : Params) (post : List Params)
        (t : RegisteredTool) (e : String),
      plan = pre ++ failAct :: post →
      (∀ a ∈ pre, actionOk tools (planCtx now) a) →
      (getString failAct "action").2 = true →
      actionName failAct ≠ "" →
      tools (actionName failAct) = some t →
      t.handler (planCtx now) (getObj failAct "parameters") = Except.error e →
      ExecutePlan tools now (some planStr) =
        (errorResponse (NewError (-32000)
            ("failed to execute tool " ++ actionName failAct ++ ": " ++ e)),
         pre.map invocationOf ++ [invocationOf failAct])) := by
  have hlen : plan.length ≠ 0 := fun h => hne (List.length_eq_zero.mp h)
  have hred : ExecutePlan tools now (some planStr) = execActions tools (planCtx now) plan := by
    unfold ExecutePlan
    simp only [if_neg hstr, hparse, if_neg hlen]
  constructor
  · intro hall
    rw [hred]
    exact execActions_all_ok tools (planCtx now) plan hall
  · intro pre failAct post t e hplan hpre hok hna ht herr
    rw [hred, hplan]
    exact execActions_failfast tools (planCtx now) failAct post t e hok hna ht herr pre hpre

/-- A concrete two-tool registry for witnesses: one always-succeeding tool and
one always-failing tool. -/
def regTwo : Registry :=
  RegisterTool (RegisterTool emptyTools "tool_ok" "ok tool" Json.null hNoop)
    "tool_fail" "failing tool" Json.null hBoom

/-- Witness for C1 at concrete inputs: a two-action plan whose second handler
fails yields the wrapped -32000 error naming the second tool and invokes the
first handler exactly once before it; a one-action succeeding plan yields the
success envelope and a one-entry trace. -/
theorem C1_sequential_failfast_witness :
    ExecutePlan regTwo 0
        (some "[\x7b\"action\":\"tool_ok\"\x7d,\x7b\"action\":\"tool_fail\"\x7d]") =
      (errorResponse (NewError (-32000) "failed to execute tool tool_fail: boom"),
       [("tool_ok", []), ("tool_fail", [])]) ∧
    ExecutePlan regTwo 0
        (some "[\x7b\"action\":\"tool_ok\",\"parameters\":\x7b\"name\":\"n1\"\x7d\x7d]") =
      (resultResponse planSuccessResult, [("tool_ok", [("name", Json.str "n1")])]) := by
  constructor
  · have h := (C1_sequential_failfast regTwo 0
        "[\x7b\"action\":\"tool_ok\"\x7d,\x7b\"action\":\"tool_fail\"\x7d]"
        [[("action", Json.str "tool_ok")], [("action", Json.str "tool_fail")]]
        (by decide) rfl (by simp)).2
        [[("action", Json.str "tool_ok")]] [("action", Json.str "tool_fail")] []
        { name := "tool_fail", description := "failing tool",
          inputSchema := Json.null, handler := hBoom } "boom"
        rfl ?_ rfl (by decide) rfl rfl
    · exact h
    · intro a ha
      simp only [List.mem_singleton] at ha
      subst ha
      exact ⟨rfl, by decide,
        ⟨{ name := "tool_ok", description := "ok tool",
           inputSchema := Json.null, handler := hNoop }, rfl, rfl⟩⟩
  · exact (C1_sequential_failfast regTwo 0
        "[\x7b\"action\":\"tool_ok\",\"parameters\":\x7b\"name\":\"n1\"\x7d\x7d]"
        [[("action", Json.str "tool_ok"),
          ("parameters", Json.obj [("name", Json.str "n1")])]]
        (by decide) rfl (by simp)).1
      (by
        intro a ha
        simp only [List.mem_singleton] at ha
        subst ha
        exact ⟨rfl, by decide,
          ⟨{ name := "tool_ok", description := "ok tool",
             inputSchema := Json.null, handler := hNoop }, rfl, rfl⟩⟩)

/-- C7: for a name with no registry entry, `CallTool` and the engine loop of
`ExecutePlan` both return an envelope with result absent and an error of the
same code -32601 and shape, and neither invokes any handler (empty traces). -/
theorem C7_unknown_tool_same_error (tools : Registry) (now : Nat) (nm : String)
    (ps : Params) (a : Params) (rest : List Params)
    (hnone : tools nm = none) (ha : getString a "action" = (nm, true)) (hnm : nm ≠ "") :
    CallTool tools now ⟨nm, ps⟩ =
      (errorResponse (NewError (-32601) ("unknown tool: " ++ nm)), []) ∧
    execActions tools (planCtx now) (a :: rest) =
      (errorResponse (NewError (-32601) ("unknown action: " ++ nm)), []) ∧
    (CallTool tools now ⟨nm, ps⟩).1.error.map RPCError.code =
      (execActions tools (planCtx now) (a :: rest)).1.error.map RPCError.code ∧
    (CallTool tools now ⟨nm, ps⟩).1.error.map RPCError.code = some (-32601) := by
  have h1 : CallTool tools now ⟨nm, ps⟩ =
      (errorResponse (NewError (-32601) ("unknown tool: " ++ nm)), []) := by
    unfold CallTool
    simp [hnone]
  have h2 : execActions tools (planCtx now) (a :: rest) =
      (errorResponse (NewError (-32601) ("unknown action: " ++ nm)), []) := by
    unfold execActions
    rw [ha]
    simp [hnm, hnone]
  exact ⟨h1, h2, by rw [h1, h2]; rfl, by rw [h1]; rfl⟩

/-- Witness for C7 at the concrete registry `regTwo` and the unregistered name
nosuch: both operations yield the -32601 envelope and invoke nothing. -/
theorem C7_unknown_tool_same_error_witness :
    CallTool regTwo 0 ⟨"nosuch", [("name", Json.str "x")]⟩ =
      (errorResponse (NewError (-32601) "unknown tool: nosuch"), []) ∧
    execActions regTwo (planCtx 0) [[("action", Json.str "nosuch")]] =
      (errorResponse (NewError (-32601) "unknown action: nosuch"), []) :=
  ⟨(C7_unknown_tool_same_error regTwo 0 "nosuch" [("name", Json.str "x")]
      [("action", Json.str "nosuch")] [] rfl rfl (by decide)).1,
   (C7_unknown_tool_same_error regTwo 0 "nosuch" [("name", Json.str "x")]
      [("action", Json.str "nosuch")] [] rfl rfl (by decide)).2.1⟩

/-- Delete a key from a bag (used to state that a non-object `parameters`
value behaves exactly as an absent one). -/
def removeKey (m : Params) (key : String) : Params :=
  m.filter (fun kv => kv.1 != key)

theorem lookupParam_removeKey (m : Params) (key k2 : String) (h : k2 ≠ key) :
    lookupParam (removeKey m key) k2 = lookupParam m k2 := by
  induction m with
  | nil => rfl
  | cons kv rest ih =>
    rcases kv with ⟨k, v⟩
    by_cases hk : k = key
    · subst hk
      have hk2 : ¬ (k = k2) := fun he => h he.symm
      simp [removeKey, lookupParam, hk2] at ih ⊢
      exact ih
    · by_cases hk2 : k = k2
      · subst hk2
        simp [removeKey, lookupParam, hk]
      · simp [removeKey, lookupParam, hk, hk2] at ih ⊢
        exact ih

theorem lookupParam_removeKey_self (m : Params) (key : String) :
    lookupParam (removeKey m key) key = none := by
  induction m with
  | nil => rfl
  | cons kv rest ih =>
    rcases kv with ⟨k, v⟩
    by_cases hk : k = key
    · subst hk
      simpa [removeKey, lookupParam] using ih
    · simp [removeKey, lookupParam, hk] at ih ⊢
      exact ih

/-- C10: an action whose `parameters` value is present but not an object is
not reported as an error: the bag extracted is the nil map, the engine behaves
exactly as if `parameters` were absent, and the resolved handler is invoked
with the empty bag, the outcome resting on the handler validation alone. -/
theorem C10_nonobject_parameters_empty_bag (tools : Registry) (ctx : Ctx)
    (a : Params) (rest : List Params) (v : Json)
    (hv : lookupParam a "parameters" = some v)
    (hnotobj : ∀ fields, v ≠ Json.obj fields) :
    getObj a "parameters" = [] ∧
    execActions tools ctx (a :: rest) =
      execActions tools ctx (removeKey a "parameters" :: rest) ∧
    (∀ t : RegisteredTool, (getString a "action").2 = true → actionName a ≠ "" →
      tools (actionName a) = some t →
      (execActions tools ctx (a :: rest)).2.head? = some (actionName a, [])) := by
  have hg : getObj a "parameters" = [] := by
    unfold getObj
    rw [hv]
    cases v with
    | null => rfl
    | bool b => rfl
    | num n => rfl
    | str s => rfl
    | arr elems => rfl
    | obj fields => exact absurd rfl (hnotobj fields)
  have hga : getString (removeKey a "parameters") "action" = getString a "action" := by
    unfold getString
    rw [lookupParam_removeKey a "parameters" "action" (by decide)]
  have hgo : getObj (removeKey a "parameters") "parameters" = [] := by
    unfold getObj
    rw [lookupParam_removeKey_self]
  refine ⟨hg, ?_, ?_⟩
  · unfold execActions
    rw [hga, hg, hgo]
  · intro t hok hne ht
    unfold execActions
    rw [show getString a "action" = ((getString a "action").1, true) from by
      rw [← hok]]
    simp only [actionName] at hne ht ⊢
    simp only [hne, ht, hg]
    cases hr : t.handler ctx [] with
    | error e => simp [hne, ht, hg, hr]
    | ok u => simp [hne, ht, hg, hr]

/-- A collaborator oracle on which every operation succeeds and every
container reports as running. -/
def rtOk : DockerRuntime :=
  { networkCreate := fun _ => Except.ok ()
    containerCreate := fun _ _ => Except.ok ()
    volumeCreate := fun _ => Except.ok ()
    containerStart := fun _ => Except.ok ()
    imagePull := fun _ => Except.ok ()
    running := fun _ => true }

/-- A registry holding only the real `create_network` handler over `rtOk`. -/
def regNet : Registry :=
  RegisterTool emptyTools "create_network" "Create a Docker network" Json.null
    (fun ctx ps => (createNetworkHandler rtOk ctx ps).1)

/-- Witness for C10 at a concrete action whose `parameters` is the string
oops: the engine behaves as with `parameters` absent and invokes the real
`create_network` handler with the empty bag (which then fails its own
required-name validation, yielding the wrapped -32000 error). -/
theorem C10_nonobject_parameters_empty_bag_witness :
    execActions regNet ctxBackground
        [[("action", Json.str "create_network"), ("parameters", Json.str "oops")]] =
      execActions regNet ctxBackground
        [removeKey [("action", Json.str "create_network"),
                    ("parameters", Json.str "oops")] "parameters"] ∧
    (execActions regNet ctxBackground
        [[("action", Json.str "create_network"), ("parameters", Json.str "oops")]]).2.head? =
      some ("create_network", []) ∧
    (execActions regNet ctxBackground
        [[("action", Json.str "create_network"), ("parameters", Json.str "oops")]]).1.error =
      some (NewError (-32000) "failed to execute tool create_network: missing network name") := by
  have h := C10_nonobject_parameters_empty_bag regNet ctxBackground
      [("action", Json.str "create_network"), ("parameters", Json.str "oops")] []
      (Json.str "oops") rfl (by intro fields hcontra; cases hcontra)
  refine ⟨h.2.1, ?_, by rfl⟩
  have h3 := h.2.2
      { name := "create_network", description := "Create a Docker network",
        inputSchema := Json.null,
        handler := fun ctx ps => (createNetworkHandler rtOk ctx ps).1 }
      rfl (by decide) rfl
  exact h3

/-- Claim C3 as stated: on a non-empty name, the run_container handler first
queries the collaborator for the current running state (an inspect call heads
the trace) and skips the start when the container is already running. -/
def runContainerClaimC3 (rt : DockerRuntime) (ctx : Ctx) (parameters : Params) : Prop :=
  (getString parameters "name").1 ≠ "" →
    ((runContainerHandler rt ctx parameters).2.head? =
        some (DockerCall.containerInspect ((getString parameters "name").1)) ∧
     (rt.running ((getString parameters "name").1) = true →
        DockerCall.containerStart ((getString parameters "name").1) ∉
          (runContainerHandler rt ctx parameters).2))

/-- Counterexample to C3: with name c1 over a collaborator reporting every
container as running, the registered handler performs no inspect query and
does not skip the start: its trace is exactly one ContainerStart call. -/
theorem C3_counterexample :
    ¬ runContainerClaimC3 rtOk ctxBackground [("name", Json.str "c1")] := by
  intro h
  exact absurd (h (by decide)).1 (by decide)

/-- C3 amended: the run_container handler only checks that the name is
non-empty; it never queries the running state and unconditionally delegates
one ContainerStart call to the collaborator. -/
theorem C3_run_container_amended (rt : DockerRuntime) (ctx : Ctx) (parameters : Params)
    (h : (getString parameters "name").1 ≠ "") :
    runContainerHandler rt ctx parameters =
      (rt.containerStart ((getString parameters "name").1),
       [DockerCall.containerStart ((getString parameters "name").1)]) ∧
    (∀ nm, DockerCall.containerInspect nm ∉ (runContainerHandler rt ctx parameters).2) := by
  unfold runContainerHandler RunContainer
  simp [h]

/-- Witness for the amended C3 at name c1 over the all-ok collaborator. -/
theorem C3_run_container_amended_witness :
    runContainerHandler rtOk ctxBackground [("name", Json.str "c1")] =
      (Except.ok (), [DockerCall.containerStart "c1"]) ∧
    DockerCall.containerInspect "c1" ∉
      (runContainerHandler rtOk ctxBackground [("name", Json.str "c1")]).2 := by
  have h := C3_run_container_amended rtOk ctxBackground [("name", Json.str "c1")] (by decide)
  exact ⟨h.1, h.2 "c1"⟩

/-- True when the value under the key is a list with a non-string element. -/
def hasNonStringElem (ps : Params) (key : String) : Bool :=
  match lookupParam ps key with
  | some (Json.arr elems) =>
    elems.any (fun j => match j with | Json.str _ => false | _ => true)
  | _ => false

/-- Claim C4 as stated: a volumes or networks list holding a non-string
element makes the create_container handler fail with a validation error and
perform no collaborator call. -/
def createContainerClaimC4 (rt : DockerRuntime) (ctx : Ctx) (ps : Params) : Prop :=
  (hasNonStringElem ps "volumes" = true ∨ hasNonStringElem ps "networks" = true) →
    ((∃ e, (createContainerHandler rt ctx ps).1 = Except.error e) ∧
     (createContainerHandler rt ctx ps).2 = [])

/-- Counterexample to C4: with name c1, image nginx and volumes [1], the
registered handler ignores the malformed list, succeeds, and performs the
ContainerCreate collaborator call. -/
theorem C4_counterexample :
    ¬ createContainerClaimC4 rtOk ctxBackground
        [("name", Json.str "c1"), ("image", Json.str "nginx"),
         ("volumes", Json.arr [Json.num 1])] := by
  intro h
  exact absurd (h (Or.inl (by decide))).2 (by decide)

/-- C4 amended: the registered create_container handler extracts and validates
only name and image; environment, volumes and networks are ignored entirely,
so a malformed list element neither raises a validation error nor prevents
the single ContainerCreate collaborator call. -/
theorem C4_create_container_amended (rt : DockerRuntime) (ctx : Ctx) (ps : Params) :
    createContainerHandler rt ctx ps =
      (if (getString ps "name").1 = "" ∨ (getString ps "image").1 = "" then
        (Except.error "missing container name or image", [])
       else
        (rt.containerCreate (getString ps "name").1 (getString ps "image").1,
         [DockerCall.containerCreate (getString ps "name").1 (getString ps "image").1])) := by
  unfold createContainerHandler CreateContainer
  by_cases hcond : (getString ps "name").1 = "" ∨ (getString ps "image").1 = ""
  · simp [hcond]
  · simp [hcond]

/-- Whether the bag holds a non-empty string under the key. -/
def usableString (ps : Params) (key : String) : Bool :=
  match lookupParam ps key with
  | some (Json.str s) => if s = "" then false else true
  | _ => false

theorem usableString_false (ps : Params) (key : String)
    (h : usableString ps key = false) :
    (getString ps key).2 = false ∨ (getString ps key).1 = "" := by
  unfold usableString at h
  unfold getString
  rcases hl : lookupParam ps key with _ | j
  · exact Or.inl rfl
  · cases j with
    | str s =>
      by_cases hs : s = ""
      · subst hs
        exact Or.inr rfl
      · rw [hl] at h
        simp [hs] at h
    | null => exact Or.inl rfl
    | bool b => exact Or.inl rfl
    | num n => exact Or.inl rfl
    | arr elems => exact Or.inl rfl
    | obj fields => exact Or.inl rfl

/-- C5: the pull_image handler resolves the reference as follows: a usable
(present, non-empty string) image parameter is used directly; otherwise a
usable name yields name:tag with the tag taken from the tag parameter and
defaulting to latest when absent; with neither usable the handler fails
without any collaborator call. -/
theorem C5_pull_image_resolution (rt : DockerRuntime) (ctx : Ctx) (now : Nat) (ps : Params) :
    (∀ img, lookupParam ps "image" = some (Json.str img) → img ≠ "" →
      resolveImageRef ps = Except.ok img) ∧
    (usableString ps "image" = false →
      ∀ nm, lookupParam ps "name" = some (Json.str nm) → nm ≠ "" →
        ((lookupParam ps "tag" = none → resolveImageRef ps = Except.ok (nm ++ ":latest")) ∧
         (∀ tg, lookupParam ps "tag" = some (Json.str tg) → tg ≠ "" →
            resolveImageRef ps = Except.ok (nm ++ ":" ++ tg)))) ∧
    (usableString ps "image" = false → usableString ps "name" = false →
      PullImage rt ctx now ps = (Except.error "missing image name for pull_image", [])) := by
  refine ⟨?_, ?_, ?_⟩
  · intro img himg hne
    have hg : getString ps "image" = (img, true) := by unfold getString; rw [himg]
    simp only [resolveImageRef, hg]
    simp [hne]
  · intro husable nm hn hne
    have himg := usableString_false ps "image" husable
    have hgn : getString ps "name" = (nm, true) := by unfold getString; rw [hn]
    constructor
    · intro htag
      have hgt : getString ps "tag" = ("", false) := by unfold getString; rw [htag]
      simp only [resolveImageRef]
      rw [if_pos himg]
      simp [hgn, hgt, hne, String.append_assoc]
    · intro tg htg htgne
      have hgt : getString ps "tag" = (tg, true) := by unfold getString; rw [htg]
      simp only [resolveImageRef]
      rw [if_pos himg]
      simp [hgn, hgt, hne, htgne]
  · intro h1 h2
    have himg := usableString_false ps "image" h1
    have hnm := usableString_false ps "name" h2
    have hres : resolveImageRef ps = Except.error "missing image name for pull_image" := by
      simp only [resolveImageRef]
      rw [if_pos himg, if_pos hnm]
    unfold PullImage
    rw [hres]

/-- Witness for C5: the bag with only name redis resolves to redis:latest, and
the empty bag makes the handler fail without any collaborator call. -/
theorem C5_pull_image_resolution_witness :
    resolveImageRef [("name", Json.str "redis")] = Except.ok "redis:latest" ∧
    PullImage rtOk ctxBackground 0 [] =
      (Except.error "missing image name for pull_image", []) := by
  refine ⟨?_, ?_⟩
  · exact ((C5_pull_image_resolution rtOk ctxBackground 0
      [("name", Json.str "redis")]).2.1 rfl "redis" rfl (by decide)).1 rfl
  · exact (C5_pull_image_resolution rtOk ctxBackground 0 []).2.2 rfl rfl

/-- The deadline of a WithTimeout child never exceeds the parent deadline. -/
theorem withTimeout_deadline_le (parent : Ctx) (now d pd : Nat)
    (h : parent.deadline = some pd) :
    ∃ cd, (withTimeout parent now d).deadline = some cd ∧ cd ≤ pd := by
  unfold withTimeout
  rw [h]
  exact ⟨min pd (now + d), rfl, Nat.min_le_left pd (now + d)⟩

/-- C8 evaluation at the failing input: under the plan-wide context created at
time 0 (deadline 30), a pull at time 5 runs under the child deadline 30 - the
plan deadline itself - and not under the two-minute horizon 125:
context.WithTimeout never moves the deadline past the parent, so the pull
child context can never be longer than the plan deadline. -/
theorem C8_pull_child_deadline_capped :
    PullImage rtOk (planCtx 0) 5 [("image", Json.str "redis:latest")] =
      (Except.ok (), [DockerCall.imagePull (some 30) "redis:latest"]) ∧
    (planCtx 0).deadline = some 30 ∧
    (withTimeout (planCtx 0) 5 120).deadline = some 30 ∧ (30 : Nat) < 5 + 120 :=
  ⟨rfl, rfl, rfl, by decide⟩
